import Mathlib

/-!
# Verification of the cashflow projection engine

Shallow embedding of `simulate_monthly_model` from `cashflow_app3.py`
(lines 205-288).  Python floats are modelled as exact rationals (`ℚ`);
the `round(x, 2)` calls at the row-construction site (lines 271-277)
are display formatting and are modelled separately by `round2` /
`displayRecord`, so that the semantic `YearRecord` carries the exact
values computed by the simulation loop.
-/

namespace Cashflow

/-- A withdrawal rule, as built by the caller (lines 191-200 of the
source): a `type` string (the UI offers `"Monthly"` and `"Lump Sum"`,
but the engine receives a plain string), an `amount` and a
`start_year`. -/
structure Withdrawal where
  type : String
  amount : ℚ
  start_year : ℤ
  deriving DecidableEq

/-- The full argument list of `simulate_monthly_model` (lines 205-220),
one field per parameter. -/
structure Config where
  initial_investment : ℚ
  monthly_income : ℚ
  monthly_expenses : ℚ
  annual_growth_rate : ℚ
  projection_years : ℕ
  use_contributions : Bool
  monthly_contribution : ℚ
  contribution_timing : String
  withdrawals : List Withdrawal
  use_inflation : Bool
  annual_inflation : ℚ
  use_income_growth : Bool
  income_growth_rate : ℚ
  use_expenses_growth : Bool
  expenses_growth_rate : ℚ
  deriving DecidableEq

/-- `monthly_rate = float(annual_growth_rate) / 100.0 / 12.0` (line 224). -/
def monthlyRate (cfg : Config) : ℚ :=
  cfg.annual_growth_rate / 100 / 12

/-- Does the character list `s` start with the character list `p`? -/
def charsStart : List Char → List Char → Bool
  | _, [] => true
  | [], _ :: _ => false
  | c :: s, d :: p => c == d && charsStart s p

/-- Python's `s.startswith(p)`, modelled on the underlying character
lists (used by the guards at lines 237 and 260). -/
def pyStartsWith (s p : String) : Bool :=
  charsStart s.data p.data

/-- This year's effective monthly income (line 247). -/
def incomeVal (cfg : Config) (year : ℕ) : ℚ :=
  if cfg.use_income_growth then
    cfg.monthly_income * (1 + cfg.income_growth_rate / 100) ^ (year - 1)
  else cfg.monthly_income

/-- This year's effective monthly expenses (line 248). -/
def expensesVal (cfg : Config) (year : ℕ) : ℚ :=
  if cfg.use_expenses_growth then
    cfg.monthly_expenses * (1 + cfg.expenses_growth_rate / 100) ^ (year - 1)
  else cfg.monthly_expenses

/-- Whether a withdrawal rule fires in month `m` (0-based, as in
`range(12)`) of year `year`: the disjunction of the two `if` guards at
lines 253 and 256.  (A single rule can satisfy at most one of the two
disjuncts, since its `type` is one string.) -/
def fires (w : Withdrawal) (year m : ℕ) : Prop :=
  (w.type = "Monthly" ∧ w.start_year ≤ (year : ℤ)) ∨
  (w.type = "Lump Sum" ∧ (year : ℤ) = w.start_year ∧ m = 11)

instance (w : Withdrawal) (year m : ℕ) : Decidable (fires w year m) := by
  unfold fires; exact inferInstance

/-- One iteration of `for w in withdrawals` (lines 252-258), acting on
the pair `(balance, year_withdrawals)`; the two `if`s are applied in
sequence exactly as in the source. -/
def wStep (year m : ℕ) (p : ℚ × ℚ) (w : Withdrawal) : ℚ × ℚ :=
  let p1 :=
    if w.type = "Monthly" ∧ w.start_year ≤ (year : ℤ) then
      (p.1 - w.amount, p.2 + w.amount)
    else p
  if w.type = "Lump Sum" ∧ (year : ℤ) = w.start_year ∧ m = 11 then
    (p1.1 - w.amount, p1.2 + w.amount)
  else p1

/-- The whole `for w in withdrawals` loop (lines 251-258). -/
def applyWithdrawals (ws : List Withdrawal) (year m : ℕ) (p : ℚ × ℚ) : ℚ × ℚ :=
  ws.foldl (wStep year m) p

/-- Total amount withdrawn in month `m` of year `year`. -/
def wdelta (ws : List Withdrawal) (year m : ℕ) : ℚ :=
  (ws.map (fun w => if fires w year m then w.amount else 0)).sum

/-- The state mutated inside one year of the simulation:
`balance` plus the year and cumulative accumulators. -/
structure MState where
  balance : ℚ
  year_interest : ℚ
  year_deposits : ℚ
  year_withdrawals : ℚ
  cum_deposits : ℚ
  cum_interest : ℚ
  deriving DecidableEq

/-- The body of `for m in range(12)` (lines 235-263), in source order:
start-of-month contribution, interest, income minus expenses,
withdrawals, end-of-month contribution. -/
def monthStep (cfg : Config) (year m : ℕ) (s : MState) : MState :=
  let s1 :=
    if cfg.use_contributions && pyStartsWith cfg.contribution_timing "Start" then
      { s with balance := s.balance + cfg.monthly_contribution,
               year_deposits := s.year_deposits + cfg.monthly_contribution,
               cum_deposits := s.cum_deposits + cfg.monthly_contribution }
    else s
  let interest := s1.balance * monthlyRate cfg
  let s2 := { s1 with balance := s1.balance + interest,
                      year_interest := s1.year_interest + interest,
                      cum_interest := s1.cum_interest + interest }
  let s3 := { s2 with balance := s2.balance + (incomeVal cfg year - expensesVal cfg year) }
  let w := applyWithdrawals cfg.withdrawals year m (s3.balance, s3.year_withdrawals)
  let s4 := { s3 with balance := w.1, year_withdrawals := w.2 }
  if cfg.use_contributions && pyStartsWith cfg.contribution_timing "End" then
    { s4 with balance := s4.balance + cfg.monthly_contribution,
              year_deposits := s4.year_deposits + cfg.monthly_contribution,
              cum_deposits := s4.cum_deposits + cfg.monthly_contribution }
  else s4

/-- State carried from one year to the next (lines 223-227). -/
structure YState where
  balance : ℚ
  cumulative_inflation : ℚ
  cum_deposits : ℚ
  cum_interest : ℚ
  deriving DecidableEq

/-- One output row (lines 269-278), with exact (unrounded) values; the
source rounds each numeric entry to 2 decimals for display, which is
modelled by `displayRecord` below. -/
structure YearRecord where
  year : ℕ
  yearlyDeposits : ℚ
  yearlyInterest : ℚ
  cumulativeDeposits : ℚ
  cumulativeInterest : ℚ
  yearlyWithdrawals : ℚ
  endBalanceNominal : ℚ
  endBalanceReal : Option ℚ
  deriving DecidableEq

/-- `display_factor = cumulative_inflation if use_inflation else 1.0`
(line 267). -/
def displayFactor (cfg : Config) (ci : ℚ) : ℚ :=
  if cfg.use_inflation then ci else 1

/-- One iteration of `for year in range(1, projection_years+1)`
(lines 231-278): reset the year accumulators, run 12 months, update the
inflation factor, and emit the row. -/
def yearStep (cfg : Config) (year : ℕ) (s : YState) : YState × YearRecord :=
  let ms0 : MState :=
    { balance := s.balance, year_interest := 0, year_deposits := 0,
      year_withdrawals := 0, cum_deposits := s.cum_deposits,
      cum_interest := s.cum_interest }
  let ms := (List.range 12).foldl (fun t m => monthStep cfg year m t) ms0
  let ci :=
    if cfg.use_inflation then s.cumulative_inflation * (1 + cfg.annual_inflation / 100)
    else s.cumulative_inflation
  let df := displayFactor cfg ci
  ({ balance := ms.balance, cumulative_inflation := ci,
     cum_deposits := ms.cum_deposits, cum_interest := ms.cum_interest },
   { year := year,
     yearlyDeposits := ms.year_deposits,
     yearlyInterest := ms.year_interest,
     cumulativeDeposits := ms.cum_deposits / df,
     cumulativeInterest := ms.cum_interest / df,
     yearlyWithdrawals := ms.year_withdrawals,
     endBalanceNominal := ms.balance,
     endBalanceReal := if cfg.use_inflation then some (ms.balance / df) else none })

/-- Initial state (lines 223-227): `balance = initial_investment`,
`cumulative_inflation = 1.0`, zero cumulative deposits and interest. -/
def initState (cfg : Config) : YState :=
  { balance := cfg.initial_investment, cumulative_inflation := 1,
    cum_deposits := 0, cum_interest := 0 }

/-- The year loop: `n` remaining years starting at year `y`. -/
def runYearsAux (cfg : Config) : ℕ → ℕ → YState → List YearRecord
  | 0, _, _ => []
  | n + 1, y, s =>
      (yearStep cfg y s).2 :: runYearsAux cfg n (y + 1) (yearStep cfg y s).1

/-- `simulate_monthly_model` (lines 205-288): the whole engine, returning
the ordered list of year rows. -/
def simulate_monthly_model (cfg : Config) : List YearRecord :=
  runYearsAux cfg cfg.projection_years 1 (initState cfg)

/-- Round-half-even to an integer, matching Python's `round`. -/
def roundHalfEven (q : ℚ) : ℤ :=
  let f := ⌊q⌋
  if q - f < 1/2 then f
  else if (1:ℚ)/2 < q - f then f + 1
  else if f % 2 = 0 then f else f + 1

/-- `round(q, 2)` as in the row construction (lines 271-277). -/
def round2 (q : ℚ) : ℚ :=
  (roundHalfEven (q * 100) : ℚ) / 100

/-- The displayed form of a row: every numeric entry rounded to two
decimals, exactly where the source applies `round(..., 2)`. -/
def displayRecord (r : YearRecord) : YearRecord :=
  { r with
    yearlyDeposits := round2 r.yearlyDeposits,
    yearlyInterest := round2 r.yearlyInterest,
    cumulativeDeposits := round2 r.cumulativeDeposits,
    cumulativeInterest := round2 r.cumulativeInterest,
    yearlyWithdrawals := round2 r.yearlyWithdrawals,
    endBalanceNominal := round2 r.endBalanceNominal,
    endBalanceReal := r.endBalanceReal.map round2 }

/-- State after `k` simulated years. -/
def stateAt (cfg : Config) : ℕ → YState
  | 0 => initState cfg
  | k + 1 => (yearStep cfg (k + 1) (stateAt cfg k)).1

/-- The row emitted for year `k + 1`. -/
def recordAt (cfg : Config) (k : ℕ) : YearRecord :=
  (yearStep cfg (k + 1) (stateAt cfg k)).2

/-- Start-of-month contribution amount, as selected by the guard at
line 237. -/
def contribStart (cfg : Config) : ℚ :=
  if cfg.use_contributions && pyStartsWith cfg.contribution_timing "Start" then
    cfg.monthly_contribution
  else 0

/-- End-of-month contribution amount, as selected by the guard at
line 260. -/
def contribEnd (cfg : Config) : ℚ :=
  if cfg.use_contributions && pyStartsWith cfg.contribution_timing "End" then
    cfg.monthly_contribution
  else 0

/-- The balance transition of one month, extracted from `monthStep`. -/
def balStep (cfg : Config) (year m : ℕ) (b : ℚ) : ℚ :=
  (b + contribStart cfg) * (1 + monthlyRate cfg)
    + (incomeVal cfg year - expensesVal cfg year)
    - wdelta cfg.withdrawals year m + contribEnd cfg

theorem wStep_eq (year m : ℕ) (p : ℚ × ℚ) (w : Withdrawal) :
    wStep year m p w =
      (p.1 - (if fires w year m then w.amount else 0),
       p.2 + (if fires w year m then w.amount else 0)) := by
  unfold wStep
  by_cases h1 : w.type = "Monthly" ∧ w.start_year ≤ (year : ℤ)
  · have h2 : ¬(w.type = "Lump Sum" ∧ (year : ℤ) = w.start_year ∧ m = 11) := by
      rintro ⟨ht, -⟩
      rw [h1.1] at ht
      exact absurd ht (by decide)
    have hf : fires w year m := Or.inl h1
    simp [h1, h2, hf]
  · by_cases h2 : w.type = "Lump Sum" ∧ (year : ℤ) = w.start_year ∧ m = 11
    · obtain ⟨ht, hy, hm⟩ := h2
      subst hm
      have hf : fires w year 11 := Or.inr ⟨ht, hy, rfl⟩
      simp [h1, ht, hy, hf]
    · have hf : ¬fires w year m := by
        rintro (h | h)
        exacts [h1 h, h2 h]
      simp [h1, h2, hf]

theorem applyWithdrawals_eq (ws : List Withdrawal) (year m : ℕ) (p : ℚ × ℚ) :
    applyWithdrawals ws year m p =
      (p.1 - wdelta ws year m, p.2 + wdelta ws year m) := by
  induction ws generalizing p with
  | nil => simp [applyWithdrawals, wdelta]
  | cons w ws ih =>
      simp only [applyWithdrawals, List.foldl_cons] at *
      rw [wStep_eq, ih]
      simp only [wdelta, List.map_cons, List.sum_cons, Prod.mk.injEq]
      exact ⟨by ring, by ring⟩

theorem wdelta_nil (year m : ℕ) : wdelta [] year m = 0 := rfl

theorem wdelta_cons (w : Withdrawal) (ws : List Withdrawal) (year m : ℕ) :
    wdelta (w :: ws) year m =
      (if fires w year m then w.amount else 0) + wdelta ws year m := by
  simp [wdelta]

theorem wdelta_append (l₁ l₂ : List Withdrawal) (year m : ℕ) :
    wdelta (l₁ ++ l₂) year m = wdelta l₁ year m + wdelta l₂ year m := by
  simp [wdelta]

theorem monthStep_balance (cfg : Config) (year m : ℕ) (s : MState) :
    (monthStep cfg year m s).balance = balStep cfg year m s.balance := by
  simp only [monthStep, applyWithdrawals_eq, balStep, contribStart, contribEnd]
  split_ifs <;> dsimp <;> ring

theorem foldl_month_balance (cfg : Config) (year : ℕ) (L : List ℕ) (s : MState) :
    (L.foldl (fun t m => monthStep cfg year m t) s).balance =
      L.foldl (fun b m => balStep cfg year m b) s.balance := by
  induction L generalizing s with
  | nil => rfl
  | cons m L ih =>
      simp only [List.foldl_cons]
      rw [ih, monthStep_balance]

theorem yearStep_fst_balance (cfg : Config) (year : ℕ) (s : YState) :
    ((yearStep cfg year s).1).balance =
      (List.range 12).foldl (fun b m => balStep cfg year m b) s.balance := by
  simp only [yearStep]
  exact foldl_month_balance cfg year _ _

theorem yearStep_snd_endBalance (cfg : Config) (year : ℕ) (s : YState) :
    ((yearStep cfg year s).2).endBalanceNominal =
      (List.range 12).foldl (fun b m => balStep cfg year m b) s.balance := by
  simp only [yearStep]
  exact foldl_month_balance cfg year _ _

theorem recordAt_endBalance (cfg : Config) (k : ℕ) :
    (recordAt cfg k).endBalanceNominal = (stateAt cfg (k + 1)).balance := by
  simp only [recordAt, stateAt]
  rw [yearStep_snd_endBalance, yearStep_fst_balance]

/-- `simulate_monthly_model` emits exactly the rows `recordAt cfg 0`,
`recordAt cfg 1`, ... `recordAt cfg (projection_years - 1)` in order. -/
theorem runYearsAux_eq_map (cfg : Config) :
    ∀ (n k : ℕ), runYearsAux cfg n (k + 1) (stateAt cfg k) =
      (List.range n).map (fun i => recordAt cfg (k + i)) := by
  intro n
  induction n with
  | zero => intro k; rfl
  | succ n ih =>
      intro k
      show (yearStep cfg (k + 1) (stateAt cfg k)).2 ::
          runYearsAux cfg n (k + 1 + 1) (yearStep cfg (k + 1) (stateAt cfg k)).1 = _
      have h1 : (yearStep cfg (k + 1) (stateAt cfg k)).1 = stateAt cfg (k + 1) := rfl
      rw [h1, ih (k + 1), List.range_succ_eq_map]
      simp only [List.map_cons, List.map_map, Nat.add_zero]
      refine congrArg₂ _ rfl ?_
      refine congrArg₂ _ ?_ rfl
      funext i
      simp only [Function.comp_apply]
      congr 1
      omega

theorem simulate_eq_map (cfg : Config) :
    simulate_monthly_model cfg =
      (List.range cfg.projection_years).map (recordAt cfg) := by
  have h0 : initState cfg = stateAt cfg 0 := rfl
  unfold simulate_monthly_model
  rw [show (1 : ℕ) = 0 + 1 from rfl, h0, runYearsAux_eq_map]
  simp

theorem simulate_length (cfg : Config) :
    (simulate_monthly_model cfg).length = cfg.projection_years := by
  rw [simulate_eq_map]; simp

theorem simulate_get (cfg : Config) (k : ℕ) (hk : k < cfg.projection_years) :
    (simulate_monthly_model cfg).get? k = some (recordAt cfg k) := by
  rw [simulate_eq_map, List.get?_map, List.get?_range hk]
  rfl

/-- Two runs whose withdrawal lists remove the same total amount in every
month of every year take identical month steps. -/
theorem monthStep_withdrawals_congr (cfg : Config) (l₁ l₂ : List Withdrawal)
    (year m : ℕ) (s : MState) (h : wdelta l₁ year m = wdelta l₂ year m) :
    monthStep { cfg with withdrawals := l₁ } year m s =
      monthStep { cfg with withdrawals := l₂ } year m s := by
  simp only [monthStep, applyWithdrawals_eq, monthlyRate, incomeVal, expensesVal]
  rw [h]

theorem yearStep_withdrawals_congr (cfg : Config) (l₁ l₂ : List Withdrawal)
    (year : ℕ) (s : YState) (h : ∀ m, wdelta l₁ year m = wdelta l₂ year m) :
    yearStep { cfg with withdrawals := l₁ } year s =
      yearStep { cfg with withdrawals := l₂ } year s := by
  have hfold : ∀ (L : List ℕ) (t : MState),
      L.foldl (fun t m => monthStep { cfg with withdrawals := l₁ } year m t) t =
        L.foldl (fun t m => monthStep { cfg with withdrawals := l₂ } year m t) t := by
    intro L
    induction L with
    | nil => intro t; rfl
    | cons m L ih =>
        intro t
        simp only [List.foldl_cons]
        rw [monthStep_withdrawals_congr cfg l₁ l₂ year m t (h m), ih]
  simp only [yearStep, displayFactor]
  rw [hfold]

theorem stateAt_withdrawals_congr (cfg : Config) (l₁ l₂ : List Withdrawal) (N : ℕ)
    (h : ∀ y m, 1 ≤ y → y ≤ N → wdelta l₁ y m = wdelta l₂ y m) :
    ∀ k, k ≤ N → stateAt { cfg with withdrawals := l₁ } k =
      stateAt { cfg with withdrawals := l₂ } k := by
  intro k
  induction k with
  | zero => intro _; rfl
  | succ k ih =>
      intro hk
      show (yearStep _ (k + 1) (stateAt _ k)).1 = (yearStep _ (k + 1) (stateAt _ k)).1
      rw [ih (by omega),
        yearStep_withdrawals_congr cfg l₁ l₂ (k + 1) _
          (fun m => h (k + 1) m (by omega) (by omega))]

theorem recordAt_withdrawals_congr (cfg : Config) (l₁ l₂ : List Withdrawal) (N : ℕ)
    (h : ∀ y m, 1 ≤ y → y ≤ N → wdelta l₁ y m = wdelta l₂ y m) :
    ∀ k, k < N → recordAt { cfg with withdrawals := l₁ } k =
      recordAt { cfg with withdrawals := l₂ } k := by
  intro k hk
  show (yearStep _ (k + 1) (stateAt _ k)).2 = (yearStep _ (k + 1) (stateAt _ k)).2
  rw [stateAt_withdrawals_congr cfg l₁ l₂ N h k (by omega),
    yearStep_withdrawals_congr cfg l₁ l₂ (k + 1) _
      (fun m => h (k + 1) m (by omega) (by omega))]

/-- Whole-run congruence: withdrawal lists that remove the same amount in
every in-range month produce the same output list. -/
theorem simulate_withdrawals_congr (cfg : Config) (l₁ l₂ : List Withdrawal)
    (h : ∀ y m, 1 ≤ y → y ≤ cfg.projection_years → wdelta l₁ y m = wdelta l₂ y m) :
    simulate_monthly_model { cfg with withdrawals := l₁ } =
      simulate_monthly_model { cfg with withdrawals := l₂ } := by
  rw [simulate_eq_map, simulate_eq_map]
  dsimp only
  refine List.map_congr_left ?_
  intro k hk
  exact recordAt_withdrawals_congr cfg l₁ l₂ cfg.projection_years h k (List.mem_range.mp hk)

theorem wdelta_perm {l₁ l₂ : List Withdrawal} (h : l₁.Perm l₂) (year m : ℕ) :
    wdelta l₁ year m = wdelta l₂ year m :=
  List.Perm.sum_eq (h.map _)

/-- With inflation enabled, the inflation factor after `k` completed
years is `(1 + rate/100)^k` (it is multiplied once per year, line 266). -/
theorem stateAt_cumulative_inflation (cfg : Config) (h : cfg.use_inflation = true) :
    ∀ k, (stateAt cfg k).cumulative_inflation =
      (1 + cfg.annual_inflation / 100) ^ k := by
  intro k
  induction k with
  | zero => rfl
  | succ k ih =>
      show ((yearStep cfg (k + 1) (stateAt cfg k)).1).cumulative_inflation = _
      simp [yearStep, h, ih, pow_succ]

/-- With inflation disabled, the inflation factor stays at `1`. -/
theorem stateAt_cumulative_inflation_off (cfg : Config) (h : cfg.use_inflation = false) :
    ∀ k, (stateAt cfg k).cumulative_inflation = 1 := by
  intro k
  induction k with
  | zero => rfl
  | succ k ih =>
      show ((yearStep cfg (k + 1) (stateAt cfg k)).1).cumulative_inflation = _
      simp [yearStep, h, ih]

theorem one_le_stateAt_cumulative_inflation (cfg : Config)
    (h : cfg.use_inflation = true → 0 ≤ cfg.annual_inflation) :
    ∀ k, 1 ≤ (stateAt cfg k).cumulative_inflation := by
  intro k
  cases hc : cfg.use_inflation with
  | false => rw [stateAt_cumulative_inflation_off cfg hc]
  | true =>
      rw [stateAt_cumulative_inflation cfg hc]
      have h1 : (1 : ℚ) ≤ 1 + cfg.annual_inflation / 100 := by
        have := h hc
        linarith
      exact one_le_pow₀ h1

/-- The exact real and nominal end balances stored in the row for year
`k + 1`, read back from the simulation state. -/
theorem recordAt_endBalanceReal (cfg : Config) (k : ℕ) :
    (recordAt cfg k).endBalanceReal =
      if cfg.use_inflation then
        some ((stateAt cfg (k + 1)).balance /
          displayFactor cfg ((stateAt cfg (k + 1)).cumulative_inflation))
      else none := rfl

theorem balStep_trivial (cfg : Config)
    (hcontrib : cfg.use_contributions = false) (hw : cfg.withdrawals = [])
    (hig : cfg.use_income_growth = false) (heg : cfg.use_expenses_growth = false)
    (hi : cfg.monthly_income = 0) (he : cfg.monthly_expenses = 0)
    (year m : ℕ) (b : ℚ) :
    balStep cfg year m b = b * (1 + monthlyRate cfg) := by
  simp [balStep, contribStart, contribEnd, incomeVal, expensesVal,
    hcontrib, hw, hig, heg, hi, he, wdelta_nil]

/-- Closed form of the balance for the zero-activity configuration:
pure monthly compounding at `annual_growth_rate/100/12`. -/
theorem stateAt_balance_trivial (cfg : Config)
    (hcontrib : cfg.use_contributions = false) (hw : cfg.withdrawals = [])
    (hig : cfg.use_income_growth = false) (heg : cfg.use_expenses_growth = false)
    (hi : cfg.monthly_income = 0) (he : cfg.monthly_expenses = 0) :
    ∀ k, (stateAt cfg k).balance =
      cfg.initial_investment * (1 + monthlyRate cfg) ^ (12 * k) := by
  intro k
  induction k with
  | zero => simp [stateAt, initState]
  | succ k ih =>
      have hfold : ∀ (L : List ℕ) (b : ℚ),
          L.foldl (fun b m => balStep cfg (k + 1) m b) b =
            b * (1 + monthlyRate cfg) ^ L.length := by
        intro L
        induction L with
        | nil => intro b; simp
        | cons m L ihL =>
            intro b
            simp only [List.foldl_cons]
            rw [balStep_trivial cfg hcontrib hw hig heg hi he (k + 1) m b, ihL,
              List.length_cons, pow_succ]
            ring
      show ((yearStep cfg (k + 1) (stateAt cfg k)).1).balance = _
      rw [yearStep_fst_balance, hfold, ih, List.length_range, mul_assoc, ← pow_add]
      have h12 : 12 * k + 12 = 12 * (k + 1) := by ring
      rw [h12]

theorem monthlyRate_timing (cfg : Config) (t : String) :
    monthlyRate { cfg with contribution_timing := t } = monthlyRate cfg := rfl

theorem incomeVal_timing (cfg : Config) (t : String) (y : ℕ) :
    incomeVal { cfg with contribution_timing := t } y = incomeVal cfg y := rfl

theorem expensesVal_timing (cfg : Config) (t : String) (y : ℕ) :
    expensesVal { cfg with contribution_timing := t } y = expensesVal cfg y := rfl

theorem monthlyRate_pos (cfg : Config) (hr : 0 < cfg.annual_growth_rate) :
    0 < monthlyRate cfg :=
  div_pos (div_pos hr (by norm_num)) (by norm_num)

/-- One month's balance difference between the StartOfMonth and
EndOfMonth timing variants: the running difference compounds, and each
month adds one month of interest on the contribution. -/
theorem balStep_timing_diff (cfg : Config) (hc : cfg.use_contributions = true)
    (y m : ℕ) (b b' : ℚ) :
    balStep { cfg with contribution_timing := "Start of Month" } y m b -
      balStep { cfg with contribution_timing := "End of Month" } y m b' =
    (b - b') * (1 + monthlyRate cfg) +
      cfg.monthly_contribution * monthlyRate cfg := by
  have hS1 : pyStartsWith "Start of Month" "Start" = true := by decide
  have hS2 : pyStartsWith "Start of Month" "End" = false := by decide
  have hE1 : pyStartsWith "End of Month" "Start" = false := by decide
  have hE2 : pyStartsWith "End of Month" "End" = true := by decide
  simp only [balStep, contribStart, contribEnd, monthlyRate_timing, incomeVal_timing,
    expensesVal_timing]
  simp [hc, hS1, hS2, hE1, hE2]
  ring

theorem fold_timing_diff_le (cfg : Config) (hc : cfg.use_contributions = true)
    (hC : 0 < cfg.monthly_contribution) (hr : 0 < cfg.annual_growth_rate) (y : ℕ) :
    ∀ (L : List ℕ) (b b' : ℚ), b' ≤ b →
      L.foldl (fun b m => balStep { cfg with contribution_timing := "End of Month" } y m b) b' ≤
        L.foldl (fun b m => balStep { cfg with contribution_timing := "Start of Month" } y m b) b := by
  have hmr := monthlyRate_pos cfg hr
  intro L
  induction L with
  | nil => intro b b' hb; simpa using hb
  | cons m L ih =>
      intro b b' hb
      simp only [List.foldl_cons]
      refine ih _ _ ?_
      have hd := balStep_timing_diff cfg hc y m b b'
      nlinarith [hd, mul_nonneg (sub_nonneg.mpr hb) (le_of_lt hmr)]

theorem fold_timing_diff_lt (cfg : Config) (hc : cfg.use_contributions = true)
    (hC : 0 < cfg.monthly_contribution) (hr : 0 < cfg.annual_growth_rate) (y : ℕ) :
    ∀ (L : List ℕ) (b b' : ℚ), b' < b →
      L.foldl (fun b m => balStep { cfg with contribution_timing := "End of Month" } y m b) b' <
        L.foldl (fun b m => balStep { cfg with contribution_timing := "Start of Month" } y m b) b := by
  have hmr := monthlyRate_pos cfg hr
  intro L
  induction L with
  | nil => intro b b' hb; simpa using hb
  | cons m L ih =>
      intro b b' hb
      simp only [List.foldl_cons]
      refine ih _ _ ?_
      have hd := balStep_timing_diff cfg hc y m b b'
      nlinarith [hd, mul_pos (sub_pos.mpr hb) hmr]

theorem fold_timing_diff_lt_of_ne_nil (cfg : Config) (hc : cfg.use_contributions = true)
    (hC : 0 < cfg.monthly_contribution) (hr : 0 < cfg.annual_growth_rate) (y : ℕ) :
    ∀ (L : List ℕ), L ≠ [] → ∀ (b b' : ℚ), b' ≤ b →
      L.foldl (fun b m => balStep { cfg with contribution_timing := "End of Month" } y m b) b' <
        L.foldl (fun b m => balStep { cfg with contribution_timing := "Start of Month" } y m b) b := by
  have hmr := monthlyRate_pos cfg hr
  intro L hL b b' hb
  cases L with
  | nil => exact absurd rfl hL
  | cons m L =>
      simp only [List.foldl_cons]
      refine fold_timing_diff_lt cfg hc hC hr y L _ _ ?_
      have hd := balStep_timing_diff cfg hc y m b b'
      nlinarith [hd, mul_nonneg (sub_nonneg.mpr hb) (le_of_lt hmr),
        mul_pos hC hmr]

/-- After every completed year the StartOfMonth balance strictly exceeds
the EndOfMonth balance. -/
theorem stateAt_timing_lt (cfg : Config) (hc : cfg.use_contributions = true)
    (hC : 0 < cfg.monthly_contribution) (hr : 0 < cfg.annual_growth_rate) :
    ∀ k, 1 ≤ k →
      (stateAt { cfg with contribution_timing := "End of Month" } k).balance <
        (stateAt { cfg with contribution_timing := "Start of Month" } k).balance := by
  intro k
  induction k with
  | zero => omega
  | succ k ih =>
      intro _
      show ((yearStep _ (k + 1) (stateAt _ k)).1).balance <
        ((yearStep _ (k + 1) (stateAt _ k)).1).balance
      rw [yearStep_fst_balance, yearStep_fst_balance]
      rcases Nat.eq_zero_or_pos k with hk0 | hk1
      · subst hk0
        have hb : (stateAt { cfg with contribution_timing := "End of Month" } 0).balance ≤
            (stateAt { cfg with contribution_timing := "Start of Month" } 0).balance := le_of_eq rfl
        exact fold_timing_diff_lt_of_ne_nil cfg hc hC hr 1 (List.range 12) (by decide) _ _ hb
      · exact fold_timing_diff_lt cfg hc hC hr (k + 1) (List.range 12) _ _ (ih hk1)

theorem monthlyRate_withdrawals (cfg : Config) (l : List Withdrawal) :
    monthlyRate { cfg with withdrawals := l } = monthlyRate cfg := rfl

theorem incomeVal_withdrawals (cfg : Config) (l : List Withdrawal) (y : ℕ) :
    incomeVal { cfg with withdrawals := l } y = incomeVal cfg y := rfl

theorem expensesVal_withdrawals (cfg : Config) (l : List Withdrawal) (y : ℕ) :
    expensesVal { cfg with withdrawals := l } y = expensesVal cfg y := rfl

theorem contribStart_withdrawals (cfg : Config) (l : List Withdrawal) :
    contribStart { cfg with withdrawals := l } = contribStart cfg := rfl

theorem contribEnd_withdrawals (cfg : Config) (l : List Withdrawal) :
    contribEnd { cfg with withdrawals := l } = contribEnd cfg := rfl

/-- A `"Lump Sum"` rule with `start_year Y` fires exactly in month 12
(index 11) of year `Y`. -/
theorem fires_lump (A : ℚ) (Y y m : ℕ) :
    fires ⟨"Lump Sum", A, (Y : ℤ)⟩ y m ↔ (y = Y ∧ m = 11) := by
  unfold fires
  have hne : ¬(("Lump Sum" : String) = "Monthly") := by decide
  simp [hne, Nat.cast_inj]

theorem wdelta_insert_lump (l₁ l₂ : List Withdrawal) (A : ℚ) (Y y m : ℕ) :
    wdelta (l₁ ++ ⟨"Lump Sum", A, (Y : ℤ)⟩ :: l₂) y m =
      wdelta (l₁ ++ l₂) y m + (if y = Y ∧ m = 11 then A else 0) := by
  by_cases h : y = Y ∧ m = 11 <;>
    simp [wdelta_append, wdelta_cons, fires_lump, h] <;> ring

/-- One month's balance difference between a run with an inserted
lump-sum rule and the run without it. -/
theorem balStep_lump_diff (cfg : Config) (l₁ l₂ : List Withdrawal) (A : ℚ)
    (Y y m : ℕ) (b b' : ℚ) :
    balStep { cfg with withdrawals := l₁ ++ ⟨"Lump Sum", A, (Y : ℤ)⟩ :: l₂ } y m b -
      balStep { cfg with withdrawals := l₁ ++ l₂ } y m b' =
    (b - b') * (1 + monthlyRate cfg) - (if y = Y ∧ m = 11 then A else 0) := by
  simp only [balStep, monthlyRate_withdrawals, incomeVal_withdrawals,
    expensesVal_withdrawals, contribStart_withdrawals, contribEnd_withdrawals]
  show _ + _ - wdelta (l₁ ++ _ :: l₂) y m + _ - (_ + _ - wdelta (l₁ ++ l₂) y m + _) = _
  rw [wdelta_insert_lump]
  ring

/-- In a year other than `Y` (or in months before the last), the running
difference is simply multiplied by the monthly growth factor. -/
theorem fold_lump_diff (cfg : Config) (l₁ l₂ : List Withdrawal) (A : ℚ) (Y y : ℕ) :
    ∀ (L : List ℕ), (∀ m ∈ L, ¬(y = Y ∧ m = 11)) → ∀ (b b' : ℚ),
      L.foldl (fun b m => balStep { cfg with withdrawals := l₁ ++ ⟨"Lump Sum", A, (Y : ℤ)⟩ :: l₂ } y m b) b -
        L.foldl (fun b m => balStep { cfg with withdrawals := l₁ ++ l₂ } y m b) b' =
      (b - b') * (1 + monthlyRate cfg) ^ L.length := by
  intro L
  induction L with
  | nil => intro _ b b'; simp
  | cons m L ih =>
      intro h b b'
      simp only [List.foldl_cons]
      rw [ih (fun m hm => h m (List.mem_cons_of_mem _ hm))]
      have hd := balStep_lump_diff cfg l₁ l₂ A Y y m b b'
      rw [if_neg (h m (List.mem_cons_self m L)), sub_zero] at hd
      rw [hd, List.length_cons, pow_succ]
      ring

/-- Over the 12 months of year `Y` itself, equal starting balances end up
exactly `A` apart: the lump sum is taken once, in the last month. -/
theorem fold_lump_diff_yearY (cfg : Config) (l₁ l₂ : List Withdrawal) (A : ℚ) (Y : ℕ)
    (b : ℚ) :
    (List.range 12).foldl (fun b m => balStep { cfg with withdrawals := l₁ ++ ⟨"Lump Sum", A, (Y : ℤ)⟩ :: l₂ } Y m b) b -
      (List.range 12).foldl (fun b m => balStep { cfg with withdrawals := l₁ ++ l₂ } Y m b) b = -A := by
  have h12 : List.range 12 = List.range 11 ++ [11] := by decide
  rw [h12, List.foldl_append, List.foldl_append]
  have h11 : ∀ m ∈ List.range 11, ¬(Y = Y ∧ m = 11) := by
    intro m hm
    have := List.mem_range.mp hm
    omega
  have heq := fold_lump_diff cfg l₁ l₂ A Y Y (List.range 11) h11 b b
  simp only [sub_self, zero_mul] at heq
  simp only [List.foldl_cons, List.foldl_nil]
  have hd := balStep_lump_diff cfg l₁ l₂ A Y Y 11
    ((List.range 11).foldl (fun b m => balStep { cfg with withdrawals := l₁ ++ ⟨"Lump Sum", A, (Y : ℤ)⟩ :: l₂ } Y m b) b)
    ((List.range 11).foldl (fun b m => balStep { cfg with withdrawals := l₁ ++ l₂ } Y m b) b)
  rw [if_pos ⟨rfl, rfl⟩] at hd
  have huv := sub_eq_zero.mp heq
  rw [huv, sub_self, zero_mul, zero_sub] at hd
  rw [huv]
  exact hd

/-- From year `Y` on, the balance of the run with the lump-sum rule is
below the other run by `A` compounded monthly since the withdrawal. -/
theorem stateAt_lump_diff (cfg : Config) (l₁ l₂ : List Withdrawal) (A : ℚ) (Y : ℕ)
    (hY1 : 1 ≤ Y) :
    ∀ k, Y ≤ k →
      (stateAt { cfg with withdrawals := l₁ ++ ⟨"Lump Sum", A, (Y : ℤ)⟩ :: l₂ } k).balance =
        (stateAt { cfg with withdrawals := l₁ ++ l₂ } k).balance -
          A * (1 + monthlyRate cfg) ^ (12 * (k - Y)) := by
  have hbefore : ∀ y m, 1 ≤ y → y ≤ Y - 1 →
      wdelta (l₁ ++ ⟨"Lump Sum", A, (Y : ℤ)⟩ :: l₂) y m = wdelta (l₁ ++ l₂) y m := by
    intro y m hy1 hy2
    rw [wdelta_insert_lump, if_neg (by omega), add_zero]
  intro k
  induction k with
  | zero => omega
  | succ k ih =>
      intro hk
      have hW : (stateAt { cfg with withdrawals := l₁ ++ ⟨"Lump Sum", A, (Y : ℤ)⟩ :: l₂ } (k + 1)).balance =
          (List.range 12).foldl
            (fun b m => balStep { cfg with withdrawals := l₁ ++ ⟨"Lump Sum", A, (Y : ℤ)⟩ :: l₂ } (k + 1) m b)
            (stateAt { cfg with withdrawals := l₁ ++ ⟨"Lump Sum", A, (Y : ℤ)⟩ :: l₂ } k).balance :=
        yearStep_fst_balance _ (k + 1) _
      have hB : (stateAt { cfg with withdrawals := l₁ ++ l₂ } (k + 1)).balance =
          (List.range 12).foldl
            (fun b m => balStep { cfg with withdrawals := l₁ ++ l₂ } (k + 1) m b)
            (stateAt { cfg with withdrawals := l₁ ++ l₂ } k).balance :=
        yearStep_fst_balance _ (k + 1) _
      rcases Nat.lt_or_ge k Y with hkY | hkY
      · -- k + 1 = Y : the year of the lump sum
        have hk1 : k + 1 = Y := by omega
        have hbk : ∀ y m, 1 ≤ y → y ≤ k →
            wdelta (l₁ ++ ⟨"Lump Sum", A, (Y : ℤ)⟩ :: l₂) y m = wdelta (l₁ ++ l₂) y m := by
          intro y m hy1 hy2
          rw [wdelta_insert_lump, if_neg (by omega), add_zero]
        have hst : stateAt { cfg with withdrawals := l₁ ++ ⟨"Lump Sum", A, (Y : ℤ)⟩ :: l₂ } k =
            stateAt { cfg with withdrawals := l₁ ++ l₂ } k :=
          stateAt_withdrawals_congr cfg _ _ k hbk k le_rfl
        subst hk1
        rw [hW, hB, hst, Nat.sub_self, Nat.mul_zero, pow_zero, mul_one]
        have hfold := fold_lump_diff_yearY cfg l₁ l₂ A (k + 1)
          (stateAt { cfg with withdrawals := l₁ ++ l₂ } k).balance
        linarith [hfold]
      · -- k ≥ Y : a later year, the difference compounds
        have hdiff := ih hkY
        rw [hW, hB, hdiff]
        have hne : ∀ m ∈ List.range 12, ¬(k + 1 = Y ∧ m = 11) := by
          intro m _
          rintro ⟨h1, -⟩
          omega
        have hfold := fold_lump_diff cfg l₁ l₂ A Y (k + 1) (List.range 12) hne
          ((stateAt { cfg with withdrawals := l₁ ++ l₂ } k).balance -
            A * (1 + monthlyRate cfg) ^ (12 * (k - Y)))
          ((stateAt { cfg with withdrawals := l₁ ++ l₂ } k).balance)
        simp only [List.length_range] at hfold
        have hexp : 12 * (k - Y) + 12 = 12 * (k + 1 - Y) := by omega
        have hcalc : ((stateAt { cfg with withdrawals := l₁ ++ l₂ } k).balance -
            A * (1 + monthlyRate cfg) ^ (12 * (k - Y)) -
            (stateAt { cfg with withdrawals := l₁ ++ l₂ } k).balance) *
              (1 + monthlyRate cfg) ^ 12 =
            -(A * (1 + monthlyRate cfg) ^ (12 * (k + 1 - Y))) := by
          rw [← hexp, pow_add]
          ring
        rw [hcalc] at hfold
        linarith [hfold]

/-- An all-zero, all-disabled configuration used as the base of the
concrete test configurations below. -/
def zeroCfg : Config :=
  { initial_investment := 0, monthly_income := 0, monthly_expenses := 0,
    annual_growth_rate := 0, projection_years := 1, use_contributions := false,
    monthly_contribution := 0, contribution_timing := "Start of Month",
    withdrawals := [], use_inflation := false, annual_inflation := 0,
    use_income_growth := false, income_growth_rate := 0,
    use_expenses_growth := false, expenses_growth_rate := 0 }

/-- An invalid configuration: its only withdrawal rule has a negative
amount and `start_year = 0 < 1`. -/
def cfgC1invalid : Config :=
  { zeroCfg with initial_investment := 50,
                 withdrawals := [⟨"Monthly", -100, 0⟩] }

/-- C1: the claim says the engine rejects configurations with
`projection_years < 1`, negative amounts, or `start_year < 1` before
executing any simulation step.  The code has no validation at all: here
a configuration whose only withdrawal rule has amount `-100 < 0` and
`start_year = 0 < 1` is simulated normally, producing a non-empty
output (one full year row) instead of being rejected. -/
theorem C1_counterexample :
    (∀ w ∈ cfgC1invalid.withdrawals, w.amount < 0 ∧ w.start_year < 1) ∧
    simulate_monthly_model cfgC1invalid ≠ [] := by
  refine ⟨by with_unfolding_all decide, ?_⟩
  intro h
  have hl := simulate_length cfgC1invalid
  rw [h] at hl
  exact absurd hl (by decide)

/-- C1 (amended): the engine performs no input validation and never
rejects: for every configuration — including `projection_years < 1`
(which yields an empty output), negative amounts, and withdrawal
`start_year < 1` — it runs to completion and returns exactly
`projection_years` year rows. -/
theorem C1_no_validation (cfg : Config) :
    (simulate_monthly_model cfg).length = cfg.projection_years :=
  simulate_length cfg

/-- C2: with contributions, withdrawals, inflation, income growth and
expenses growth disabled, zero income and expenses, and a positive
initial balance, the nominal end balance of the final year row equals
`initial_investment * (1 + annual_growth_rate/100/12)^(12*projection_years)`. -/
theorem C2_zero_activity_closed_form (cfg : Config)
    (hcontrib : cfg.use_contributions = false) (hw : cfg.withdrawals = [])
    (hinf : cfg.use_inflation = false) (hig : cfg.use_income_growth = false)
    (heg : cfg.use_expenses_growth = false) (hi : cfg.monthly_income = 0)
    (he : cfg.monthly_expenses = 0) (hinit : 0 < cfg.initial_investment)
    (hp : 1 ≤ cfg.projection_years) :
    ∃ r, (simulate_monthly_model cfg).get? (cfg.projection_years - 1) = some r ∧
      r.endBalanceNominal = cfg.initial_investment *
        (1 + cfg.annual_growth_rate / 100 / 12) ^ (12 * cfg.projection_years) := by
  refine ⟨recordAt cfg (cfg.projection_years - 1), simulate_get cfg _ (by omega), ?_⟩
  rw [recordAt_endBalance]
  have h1 : cfg.projection_years - 1 + 1 = cfg.projection_years := by omega
  rw [h1, stateAt_balance_trivial cfg hcontrib hw hig heg hi he]
  rfl

/-- Concrete instance of the second spec scenario: 10000 at 12% APR for
one year. -/
def cfgC2 : Config :=
  { zeroCfg with initial_investment := 10000, annual_growth_rate := 12 }

/-- C2 witness at the spec's own scenario (`10000 * 1.01^12`). -/
theorem C2_zero_activity_closed_form_witness :
    ∃ r, (simulate_monthly_model cfgC2).get? (cfgC2.projection_years - 1) = some r ∧
      r.endBalanceNominal = cfgC2.initial_investment *
        (1 + cfgC2.annual_growth_rate / 100 / 12) ^ (12 * cfgC2.projection_years) :=
  C2_zero_activity_closed_form cfgC2 rfl rfl rfl rfl rfl rfl rfl
    (by with_unfolding_all decide) (by decide)

/-- Base configuration for the lump-sum claims: 1000 at 12% APR for two
years. -/
def cfgC3 : Config :=
  { zeroCfg with initial_investment := 1000, annual_growth_rate := 12,
                 projection_years := 2 }

/-- The same configuration with a lump-sum withdrawal of 100 in year 1. -/
def cfgC3W : Config :=
  { cfgC3 with withdrawals := [⟨"Lump Sum", 100, 1⟩] }

/-- C3: the claim says a LumpSum withdrawal of amount `A` at `start_year
Y` lowers every year `≥ Y` by the same constant amount `A`.  False at
year 2 of this concrete two-year run: the year-2 row of the run with the
lump sum is lower by `100 * 1.01^12 ≈ 112.68` (the shift compounds with
twelve further months of growth), not by `100`. -/
theorem C3_counterexample :
    ((simulate_monthly_model cfgC3W).get? 1).map (fun r => r.endBalanceNominal) ≠
      ((simulate_monthly_model cfgC3).get? 1).map (fun r => r.endBalanceNominal - 100) := by
  have hk : (1 + monthlyRate cfgC3) ^ 12 ≠ 1 := by with_unfolding_all decide
  have h1 := simulate_get cfgC3W 1 (by decide)
  have h2 := simulate_get cfgC3 1 (by decide)
  rw [h1, h2]
  have hd : (recordAt cfgC3W 1).endBalanceNominal =
      (recordAt cfgC3 1).endBalanceNominal -
        100 * (1 + monthlyRate cfgC3) ^ (12 * (2 - 1)) := by
    rw [recordAt_endBalance, recordAt_endBalance]
    exact stateAt_lump_diff cfgC3 [] [] 100 1 le_rfl 2 (by omega)
  norm_num at hd
  intro hcontra
  have hval := Option.some.inj hcontra
  dsimp only at hval
  have hpow : (1 + monthlyRate cfgC3) ^ 12 = 1 := by linarith [hval, hd]
  exact hk hpow

/-- C3 (amended): inserting a LumpSum rule `⟨A, Y⟩` (with
`1 ≤ Y ≤ projection_years`) into any configuration leaves every year
before `Y` entirely unchanged and lowers the nominal end balance of
every year `y ≥ Y` by `A * (1 + annual_growth_rate/100/12)^(12*(y-Y))`:
exactly `A` at year `Y` itself (the rule fires once, in the last month
of year `Y`), and `A` compounded monthly thereafter — a constant shift
only when the growth rate is zero. -/
theorem C3_lump_sum_shift (cfg : Config) (l₁ l₂ : List Withdrawal) (A : ℚ) (Y : ℕ)
    (hY1 : 1 ≤ Y) (hYp : Y ≤ cfg.projection_years)
    (y : ℕ) (hy1 : 1 ≤ y) (hyp : y ≤ cfg.projection_years) :
    ∃ rB rW,
      (simulate_monthly_model { cfg with withdrawals := l₁ ++ l₂ }).get? (y - 1) = some rB ∧
      (simulate_monthly_model { cfg with withdrawals := l₁ ++ ⟨"Lump Sum", A, (Y : ℤ)⟩ :: l₂ }).get? (y - 1) = some rW ∧
      (y < Y → rW = rB) ∧
      rW.endBalanceNominal = rB.endBalanceNominal -
        (if y < Y then 0
         else A * (1 + cfg.annual_growth_rate / 100 / 12) ^ (12 * (y - Y))) := by
  have hcongr : y < Y →
      recordAt { cfg with withdrawals := l₁ ++ ⟨"Lump Sum", A, (Y : ℤ)⟩ :: l₂ } (y - 1) =
        recordAt { cfg with withdrawals := l₁ ++ l₂ } (y - 1) := by
    intro hyY
    have hb : ∀ y' m, 1 ≤ y' → y' ≤ Y - 1 →
        wdelta (l₁ ++ ⟨"Lump Sum", A, (Y : ℤ)⟩ :: l₂) y' m = wdelta (l₁ ++ l₂) y' m := by
      intro y' m hy'1 hy'2
      rw [wdelta_insert_lump, if_neg (by omega), add_zero]
    exact recordAt_withdrawals_congr cfg _ _ (Y - 1) hb (y - 1) (by omega)
  refine ⟨recordAt { cfg with withdrawals := l₁ ++ l₂ } (y - 1),
    recordAt { cfg with withdrawals := l₁ ++ ⟨"Lump Sum", A, (Y : ℤ)⟩ :: l₂ } (y - 1),
    simulate_get _ _ (show y - 1 < cfg.projection_years by omega),
    simulate_get _ _ (show y - 1 < cfg.projection_years by omega),
    hcongr, ?_⟩
  by_cases hyY : y < Y
  · rw [if_pos hyY, sub_zero, hcongr hyY]
  · rw [if_neg hyY, recordAt_endBalance, recordAt_endBalance]
    have h1 : y - 1 + 1 = y := by omega
    rw [h1]
    exact stateAt_lump_diff cfg l₁ l₂ A Y hY1 y (by omega)

/-- C3 witness: at year 2, a lump sum of 100 taken in year 1 lowers the
end balance by `100 * 1.01^12`. -/
theorem C3_lump_sum_shift_witness :
    ∃ rB rW,
      (simulate_monthly_model { cfgC3 with withdrawals := ([] : List Withdrawal) ++ [] }).get? (2 - 1) = some rB ∧
      (simulate_monthly_model { cfgC3 with withdrawals := [] ++ (⟨"Lump Sum", 100, ((1 : ℕ) : ℤ)⟩ : Withdrawal) :: [] }).get? (2 - 1) = some rW ∧
      (2 < 1 → rW = rB) ∧
      rW.endBalanceNominal = rB.endBalanceNominal -
        (if 2 < 1 then 0
         else 100 * (1 + cfgC3.annual_growth_rate / 100 / 12) ^ (12 * (2 - 1))) :=
  C3_lump_sum_shift cfgC3 [] [] 100 1 (by decide) (by decide) 2 (by decide) (by decide)

/-- C4: for identical configurations differing only in contribution
timing, with contributions enabled, a positive monthly contribution and
a positive growth rate, the StartOfMonth run's nominal end balance is
strictly greater than the EndOfMonth run's for every year of the run. -/
theorem C4_timing_strict (cfg : Config) (hc : cfg.use_contributions = true)
    (hC : 0 < cfg.monthly_contribution) (hr : 0 < cfg.annual_growth_rate)
    (y : ℕ) (hy1 : 1 ≤ y) (hyp : y ≤ cfg.projection_years) :
    ∃ rS rE,
      (simulate_monthly_model { cfg with contribution_timing := "Start of Month" }).get? (y - 1) = some rS ∧
      (simulate_monthly_model { cfg with contribution_timing := "End of Month" }).get? (y - 1) = some rE ∧
      rE.endBalanceNominal < rS.endBalanceNominal := by
  refine ⟨_, _, simulate_get _ _ (show y - 1 < cfg.projection_years by omega),
    simulate_get _ _ (show y - 1 < cfg.projection_years by omega), ?_⟩
  rw [recordAt_endBalance, recordAt_endBalance]
  have h1 : y - 1 + 1 = y := by omega
  rw [h1]
  exact stateAt_timing_lt cfg hc hC hr y (by omega)

/-- Contribution configuration: 100 per month at 12% APR over two years. -/
def cfgC4 : Config :=
  { zeroCfg with use_contributions := true, monthly_contribution := 100,
                 annual_growth_rate := 12, projection_years := 2 }

/-- C4 witness at year 2 of the concrete contribution scenario. -/
theorem C4_timing_strict_witness :
    ∃ rS rE,
      (simulate_monthly_model { cfgC4 with contribution_timing := "Start of Month" }).get? (2 - 1) = some rS ∧
      (simulate_monthly_model { cfgC4 with contribution_timing := "End of Month" }).get? (2 - 1) = some rE ∧
      rE.endBalanceNominal < rS.endBalanceNominal :=
  C4_timing_strict cfgC4 rfl (by with_unfolding_all decide)
    (by with_unfolding_all decide) 2 (by decide) (by decide)

/-- C5: with inflation enabled (rate `≥ 0`), the real end balance of
every year row times `(1 + rate/100)^y` equals the nominal end balance —
here proved as an exact identity of the computed values, which in
particular holds within any display rounding. -/
theorem C5_inflation_round_trip (cfg : Config) (hinf : cfg.use_inflation = true)
    (hrate : 0 ≤ cfg.annual_inflation)
    (y : ℕ) (hy1 : 1 ≤ y) (hyp : y ≤ cfg.projection_years) :
    ∃ r v, (simulate_monthly_model cfg).get? (y - 1) = some r ∧
      r.endBalanceReal = some v ∧
      v * (1 + cfg.annual_inflation / 100) ^ y = r.endBalanceNominal := by
  have h1 : y - 1 + 1 = y := by omega
  refine ⟨recordAt cfg (y - 1),
    (stateAt cfg y).balance / (1 + cfg.annual_inflation / 100) ^ y,
    simulate_get cfg _ (by omega), ?_, ?_⟩
  · rw [recordAt_endBalanceReal, if_pos hinf, h1, displayFactor, if_pos hinf,
      stateAt_cumulative_inflation cfg hinf]
  · rw [recordAt_endBalance, h1]
    have hb : (0 : ℚ) < 1 + cfg.annual_inflation / 100 := by linarith
    exact div_mul_cancel₀ _ (pow_ne_zero y hb.ne')

/-- Inflation configuration: 1000 at 6% APR, 2% inflation, three years. -/
def cfgC5 : Config :=
  { zeroCfg with initial_investment := 1000, annual_growth_rate := 6,
                 projection_years := 3, use_inflation := true,
                 annual_inflation := 2 }

/-- C5 witness at year 2 of the concrete inflation scenario. -/
theorem C5_inflation_round_trip_witness :
    ∃ r v, (simulate_monthly_model cfgC5).get? (2 - 1) = some r ∧
      r.endBalanceReal = some v ∧
      v * (1 + cfgC5.annual_inflation / 100) ^ 2 = r.endBalanceNominal :=
  C5_inflation_round_trip cfgC5 rfl (by with_unfolding_all decide) 2
    (by decide) (by decide)

/-- C6: permuting the withdrawals list leaves the whole output sequence
unchanged — each rule is evaluated independently and the monthly effect
is the sum of the firing rules' amounts. -/
theorem C6_withdrawal_order_irrelevant (cfg : Config) (l₁ l₂ : List Withdrawal)
    (h : l₁.Perm l₂) :
    simulate_monthly_model { cfg with withdrawals := l₁ } =
      simulate_monthly_model { cfg with withdrawals := l₂ } :=
  simulate_withdrawals_congr cfg l₁ l₂ (fun y m _ _ => wdelta_perm h y m)

/-- Withdrawal configuration: 5000 at 6% APR for three years. -/
def cfgC6 : Config :=
  { zeroCfg with initial_investment := 5000, annual_growth_rate := 6,
                 projection_years := 3 }

/-- A recurring withdrawal rule used in the C6 witness. -/
def wMonthly50 : Withdrawal := ⟨"Monthly", 50, 1⟩

/-- A lump-sum withdrawal rule used in the C6 witness. -/
def wLump200 : Withdrawal := ⟨"Lump Sum", 200, 2⟩

/-- C6 witness: swapping two withdrawal rules gives identical output. -/
theorem C6_withdrawal_order_irrelevant_witness :
    simulate_monthly_model { cfgC6 with withdrawals := [wMonthly50, wLump200] } =
      simulate_monthly_model { cfgC6 with withdrawals := [wLump200, wMonthly50] } :=
  C6_withdrawal_order_irrelevant cfgC6 [wMonthly50, wLump200] [wLump200, wMonthly50]
    (List.Perm.swap wLump200 wMonthly50 [])

/-- C7: a withdrawal rule (Monthly or Lump Sum) whose `start_year`
exceeds `projection_years` never fires: removing it from the withdrawal
list leaves the whole output sequence unchanged. -/
theorem C7_out_of_range_rule_noop (cfg : Config) (l₁ l₂ : List Withdrawal)
    (w : Withdrawal) (htype : w.type = "Monthly" ∨ w.type = "Lump Sum")
    (hstart : (cfg.projection_years : ℤ) < w.start_year) :
    simulate_monthly_model { cfg with withdrawals := l₁ ++ w :: l₂ } =
      simulate_monthly_model { cfg with withdrawals := l₁ ++ l₂ } := by
  apply simulate_withdrawals_congr
  intro y m hy1 hyp
  rw [wdelta_append, wdelta_cons, wdelta_append]
  have hyz : (y : ℤ) ≤ (cfg.projection_years : ℤ) := by exact_mod_cast hyp
  have hnf : ¬fires w y m := by
    rintro (⟨-, hle⟩ | ⟨-, heq, -⟩)
    · omega
    · omega
  rw [if_neg hnf]
  ring

/-- Horizon-1 configuration for the out-of-range witnesses. -/
def cfgC7 : Config :=
  { zeroCfg with initial_investment := 500, annual_growth_rate := 6 }

/-- C7 witness: a Monthly rule starting at year 2 of a 1-year run is a
no-op. -/
theorem C7_out_of_range_rule_noop_witness :
    simulate_monthly_model { cfgC7 with withdrawals := [] ++ (⟨"Monthly", 50, 2⟩ : Withdrawal) :: [] } =
      simulate_monthly_model { cfgC7 with withdrawals := ([] : List Withdrawal) ++ [] } :=
  C7_out_of_range_rule_noop cfgC7 [] [] ⟨"Monthly", 50, 2⟩ (Or.inl rfl) (by decide)

/-- C8: a year row carries a real end balance exactly when inflation is
enabled. -/
theorem C8_real_balance_iff_inflation (cfg : Config) (k : ℕ)
    (hk : k < cfg.projection_years) :
    ∃ r, (simulate_monthly_model cfg).get? k = some r ∧
      r.endBalanceReal.isSome = cfg.use_inflation := by
  refine ⟨recordAt cfg k, simulate_get cfg k hk, ?_⟩
  rw [recordAt_endBalanceReal]
  cases h : cfg.use_inflation <;> simp [h]

/-- Two-year no-inflation configuration for the C8 witness. -/
def cfgC8 : Config :=
  { zeroCfg with initial_investment := 100, projection_years := 2 }

/-- C8 witness: with inflation disabled the year-2 row has no real end
balance. -/
theorem C8_real_balance_iff_inflation_witness :
    ∃ r, (simulate_monthly_model cfgC8).get? 1 = some r ∧
      r.endBalanceReal.isSome = cfgC8.use_inflation :=
  C8_real_balance_iff_inflation cfgC8 1 (by decide)

/-- C9: for a valid configuration (inflation rate `≥ 0` whenever
inflation is enabled) the display factor is `≥ 1` after every number of
simulated years: it starts at 1 and is only multiplied by factors
`(1 + rate/100) ≥ 1`, so dividing by it is always well defined. -/
theorem C9_display_factor_ge_one (cfg : Config)
    (h : cfg.use_inflation = true → 0 ≤ cfg.annual_inflation) :
    ∀ k, 1 ≤ displayFactor cfg ((stateAt cfg k).cumulative_inflation) := by
  intro k
  have h1 := one_le_stateAt_cumulative_inflation cfg h k
  unfold displayFactor
  split_ifs
  · exact h1
  · exact le_refl 1

/-- Inflation-enabled configuration for the C9 witness. -/
def cfgC9 : Config :=
  { zeroCfg with use_inflation := true, annual_inflation := 2,
                 projection_years := 2 }

/-- C9 witness after two years at 2% inflation. -/
theorem C9_display_factor_ge_one_witness :
    1 ≤ displayFactor cfgC9 ((stateAt cfgC9 2).cumulative_inflation) :=
  C9_display_factor_ge_one cfgC9 (fun _ => by with_unfolding_all decide) 2

/-- C10: a withdrawal rule whose type string is neither `"Monthly"` nor
`"Lump Sum"` never fires: removing it from the withdrawal list leaves
the whole output sequence unchanged (the engine silently ignores
unrecognized kinds rather than rejecting them). -/
theorem C10_unknown_kind_ignored (cfg : Config) (l₁ l₂ : List Withdrawal)
    (w : Withdrawal) (h1 : w.type ≠ "Monthly") (h2 : w.type ≠ "Lump Sum") :
    simulate_monthly_model { cfg with withdrawals := l₁ ++ w :: l₂ } =
      simulate_monthly_model { cfg with withdrawals := l₁ ++ l₂ } := by
  apply simulate_withdrawals_congr
  intro y m _ _
  rw [wdelta_append, wdelta_cons, wdelta_append]
  have hnf : ¬fires w y m := by
    rintro (⟨ht, -⟩ | ⟨ht, -⟩)
    exacts [h1 ht, h2 ht]
  rw [if_neg hnf]
  ring

/-- Configuration for the C10 witness. -/
def cfgC10 : Config :=
  { zeroCfg with initial_investment := 100 }

/-- C10 witness: a `"Quarterly"` rule is ignored. -/
theorem C10_unknown_kind_ignored_witness :
    simulate_monthly_model { cfgC10 with withdrawals := [] ++ (⟨"Quarterly", 25, 1⟩ : Withdrawal) :: [] } =
      simulate_monthly_model { cfgC10 with withdrawals := ([] : List Withdrawal) ++ [] } :=
  C10_unknown_kind_ignored cfgC10 [] [] ⟨"Quarterly", 25, 1⟩ (by decide) (by decide)

end Cashflow
